import Mathlib

/-!
Shallow embedding of `src/main.rs` of the test-orchestrator service: an
in-memory registry mapping build ids to builds, each build owning a queue of
test specifications and a map of worker instances, with four protocol
operations (`register_instance`, `next_spec`, `test_completed`, `reset_data`),
an expiry sweep (`clear_old_data`) and the request-identity extractor
(`get_meta` / `from_request`).

Rust `HashMap<String, _>` is modelled as an association list with
replace-in-place insertion; iteration order is only ever used by the expiry
sweep, which removes all expired entries at once, so the list model is
faithful.  `VecDeque<String>` is a `List String` consumed from the head.
Timestamps (`chrono::DateTime<Utc>`) are modelled as `Int` seconds;
`chrono::Duration::hours(2)` is the constant 7200.  Each handler body runs
under the single registry lock, so an operation is a function from the
registry state to the new state plus a result; fallible handlers return
`Except ApiError` mirroring `Result<_, actix_web::Error>`.
-/

set_option maxHeartbeats 1000000

deriving instance DecidableEq for Except

namespace TestOrch

/-- Mirrors Rust `enum TestStatus { Ongoing, Done }`. -/
inductive TestStatus where
  | Ongoing
  | Done
deriving DecidableEq, Repr

/-- Mirrors Rust `struct Instance { test_list, test_status, is_master }`. -/
structure Instance where
  test_list : List String
  test_status : TestStatus
  is_master : Bool
deriving DecidableEq, Repr

/-- Mirrors Rust `struct Build { instance_map, created_on, test_spec_list }`.
`instance_map : HashMap<String, Instance>` is an association list;
`test_spec_list : VecDeque<String>` is a list popped from the head;
`created_on` is an integer timestamp in seconds. -/
structure Build where
  instance_map : List (String × Instance)
  created_on : Int
  test_spec_list : List String
deriving DecidableEq, Repr

/-- The registry guarded by the mutex: `HashMap<String, Build>`. -/
abbrev BuildMap := List (String × Build)

/-- The error conditions surfaced as `error::ErrorBadRequest` in the Rust
handlers: missing/invalid identity, "Build not found", "Instance not found". -/
inductive ApiError where
  | InvalidRequest
  | BuildNotFound
  | InstanceNotFound
deriving DecidableEq, Repr

/-- `HashMap::get` / `get_mut`: first entry with the given key. -/
def lookupA {α : Type} : List (String × α) → String → Option α
  | [], _ => none
  | (k, v) :: rest, key => if k = key then some v else lookupA rest key

/-- `HashMap::insert`: replace the value at the key if present, else add the
entry. -/
def insertA {α : Type} : List (String × α) → String → α → List (String × α)
  | [], key, v => [(key, v)]
  | (k, w) :: rest, key, v =>
      if k = key then (k, v) :: rest else (k, w) :: insertA rest key v

/-- `HashMap::remove`: drop every entry at the key (a hash map holds each key
at most once, so on any list representing one this removes exactly the key's
entry). -/
def eraseA {α : Type} : List (String × α) → String → List (String × α)
  | [], _ => []
  | (k, w) :: rest, key =>
      if k = key then eraseA rest key else (k, w) :: eraseA rest key

/-- Mirrors `clear_old_data`: `threshold = now - 2 hours`; every build with
`created_on < threshold` is removed. -/
def clear_old_data (now : Int) (m : BuildMap) : BuildMap :=
  m.filter (fun kv => !(decide (kv.2.created_on < now - 7200)))

/-- Mirrors the `register_instance` handler body (after the lock is taken):
run the sweep, `entry(build_id).or_insert` a fresh build carrying the
request's spec list, then unconditionally `insert` a fresh `Instance` whose
`is_master` is whether `instance_map` was empty before the insert.  Returns
the new registry state and the instance serialized in the response. -/
def register_instance (now : Int) (build_id instance_id : String)
    (test_spec_list : List String) (m : BuildMap) : BuildMap × Instance :=
  let m1 := clear_old_data now m
  let build : Build :=
    match lookupA m1 build_id with
    | some b => b
    | none =>
        { created_on := now, instance_map := [], test_spec_list := test_spec_list }
  let inst : Instance :=
    { test_list := [], test_status := .Ongoing,
      is_master := build.instance_map.isEmpty }
  let build' := { build with instance_map := insertA build.instance_map instance_id inst }
  (insertA m1 build_id build', inst)

/-- Mirrors the `next_spec` handler body: look up the build (else "Build not
found"), `pop_front` the spec queue with `""` as the default, write the popped
state back, look the build up again, look up the instance (else "Instance not
found" — note the pop has already been applied to the shared map at this
point), push the dequeued value onto the instance's `test_list`, and report
status `Done` exactly when the dequeued string is empty.  The first component
is the registry state after the handler returns, on every exit path. -/
def next_spec (build_id instance_id : String) (m : BuildMap) :
    BuildMap × Except ApiError (TestStatus × String) :=
  match lookupA m build_id with
  | none => (m, .error .BuildNotFound)
  | some b =>
      let next_test := b.test_spec_list.headD ""
      let b1 := { b with test_spec_list := b.test_spec_list.tail }
      let m1 := insertA m build_id b1
      match lookupA m1 build_id with
      | none => (m1, .error .BuildNotFound)
      | some b2 =>
          match lookupA b2.instance_map instance_id with
          | none => (m1, .error .InstanceNotFound)
          | some inst =>
              let inst' := { inst with test_list := inst.test_list ++ [next_test] }
              let b3 := { b2 with instance_map := insertA b2.instance_map instance_id inst' }
              (insertA m1 build_id b3,
               .ok (if next_test = "" then .Done else .Ongoing, next_test))

/-- Mirrors the `test_completed` handler body: look up the build, then the
instance, and overwrite its `test_status` with `Done`. -/
def test_completed (build_id instance_id : String) (m : BuildMap) :
    BuildMap × Except ApiError Unit :=
  match lookupA m build_id with
  | none => (m, .error .BuildNotFound)
  | some b =>
      match lookupA b.instance_map instance_id with
      | none => (m, .error .InstanceNotFound)
      | some inst =>
          let inst' := { inst with test_status := .Done }
          (insertA m build_id { b with instance_map := insertA b.instance_map instance_id inst' },
           .ok ())

/-- Mirrors the `reset_data` handler body: `build_map.remove(&build_id)`,
unconditionally succeeding. -/
def reset_data (build_id : String) (m : BuildMap) : BuildMap :=
  eraseA m build_id

/-- Mirrors `struct RequestMeta`. -/
structure RequestMeta where
  build_id : String
  instance_id : String
  token : String
deriving DecidableEq, Repr

/-- The three request headers the extractor reads.  A field is `none` when the
header is absent or its bytes fail `to_str` (unparsable); otherwise it carries
the header's string value. -/
structure Headers where
  ci_build_id : Option String
  ci_instance_id : Option String
  repo_token : Option String
deriving DecidableEq, Repr

/-- Mirrors `get_meta`: all three headers must be present and parsable, each
taken verbatim with no further validation. -/
def get_meta (h : Headers) : Option RequestMeta :=
  match h.ci_build_id, h.ci_instance_id, h.repo_token with
  | some b, some i, some t => some { build_id := b, instance_id := i, token := t }
  | _, _, _ => none

/-- Mirrors `RequestMeta::from_request`: `get_meta` must succeed and the
token must equal the configured secret, else `ErrorBadRequest`. -/
def from_request (h : Headers) (config_token : String) : Except ApiError RequestMeta :=
  match get_meta h with
  | some meta =>
      if meta.token = config_token then .ok meta else .error .InvalidRequest
  | none => .error .InvalidRequest

/-- One protocol operation, for reachability over sequences of requests. -/
inductive Op where
  | register (now : Int) (build_id instance_id : String) (specs : List String)
  | next (build_id instance_id : String)
  | completed (build_id instance_id : String)
  | reset (build_id : String)

/-- The state transition of one operation (its response discarded). -/
def applyOp (m : BuildMap) : Op → BuildMap
  | .register now bid iid specs => (register_instance now bid iid specs m).1
  | .next bid iid => (next_spec bid iid m).1
  | .completed bid iid => (test_completed bid iid m).1
  | .reset bid => reset_data bid m

/-- Run a sequence of operations from a starting state. -/
def runOps (m : BuildMap) (ops : List Op) : BuildMap :=
  ops.foldl applyOp m

/-- A registry state reachable from the empty initial map (`HashMap::new()` at
startup) by some sequence of protocol operations. -/
def Reachable (m : BuildMap) : Prop :=
  ∃ ops : List Op, runOps [] ops = m

/-- Run `next_spec` once per listed instance id, against a fixed build,
collecting the responses in order. -/
def runNextSpecs (build_id : String) (m : BuildMap) :
    List String → BuildMap × List (Except ApiError (TestStatus × String))
  | [] => (m, [])
  | iid :: rest =>
      let (m1, r) := next_spec build_id iid m
      let (m2, rs) := runNextSpecs build_id m1 rest
      (m2, r :: rs)

/-! ### Association-list lemmas -/

theorem lookupA_insertA_self {α : Type} (l : List (String × α)) (k : String) (v : α) :
    lookupA (insertA l k v) k = some v := by
  induction l with
  | nil => simp [insertA, lookupA]
  | cons kw rest ih =>
      obtain ⟨k', w⟩ := kw
      by_cases h : k' = k <;> simp [insertA, lookupA, h, ih]

theorem lookupA_insertA_ne {α : Type} (l : List (String × α)) (k k' : String) (v : α)
    (h : k' ≠ k) : lookupA (insertA l k v) k' = lookupA l k' := by
  have h' : ¬ k = k' := fun hk => h hk.symm
  induction l with
  | nil => simp [insertA, lookupA, h']
  | cons kw rest ih =>
      obtain ⟨k₀, w⟩ := kw
      by_cases h0 : k₀ = k
      · subst h0
        simp [insertA, lookupA, h']
      · by_cases h1 : k₀ = k' <;> simp [insertA, lookupA, h0, h1, ih, h, h']

theorem isSome_lookupA_insertA {α : Type} (l : List (String × α)) (k k' : String) (v : α)
    (h : (lookupA l k').isSome) : (lookupA (insertA l k v) k').isSome := by
  by_cases hk : k' = k
  · subst hk; simp [lookupA_insertA_self]
  · rwa [lookupA_insertA_ne l k k' v hk]

theorem mem_of_lookupA {α : Type} (l : List (String × α)) (k : String) (v : α)
    (h : lookupA l k = some v) : (k, v) ∈ l := by
  induction l with
  | nil => simp [lookupA] at h
  | cons kw rest ih =>
      obtain ⟨k₀, w⟩ := kw
      by_cases h0 : k₀ = k
      · subst h0
        simp [lookupA] at h
        simp [h]
      · simp [lookupA, h0] at h
        exact List.mem_cons_of_mem _ (ih h)

theorem mem_insertA {α : Type} (l : List (String × α)) (k : String) (v : α)
    (kv : String × α) (h : kv ∈ insertA l k v) : kv = (k, v) ∨ kv ∈ l := by
  induction l with
  | nil => simp [insertA] at h; simp [h]
  | cons kw rest ih =>
      obtain ⟨k₀, w⟩ := kw
      by_cases h0 : k₀ = k
      · subst h0
        simp [insertA] at h
        rcases h with h | h
        · exact Or.inl h
        · exact Or.inr (List.mem_cons_of_mem _ h)
      · simp [insertA, h0] at h
        rcases h with h | h
        · exact Or.inr (by simp [h])
        · rcases ih h with h' | h'
          · exact Or.inl h'
          · exact Or.inr (List.mem_cons_of_mem _ h')

theorem mem_eraseA {α : Type} (l : List (String × α)) (k : String)
    (kv : String × α) (h : kv ∈ eraseA l k) : kv ∈ l := by
  induction l with
  | nil => simp [eraseA] at h
  | cons kw rest ih =>
      obtain ⟨k₀, w⟩ := kw
      by_cases h0 : k₀ = k
      · simp [eraseA, h0] at h
        exact List.mem_cons_of_mem _ (ih h)
      · simp [eraseA, h0] at h
        rcases h with h | h
        · simp [h]
        · exact List.mem_cons_of_mem _ (ih h)

theorem lookupA_eraseA_self {α : Type} (l : List (String × α)) (k : String) :
    lookupA (eraseA l k) k = none := by
  induction l with
  | nil => simp [eraseA, lookupA]
  | cons kw rest ih =>
      obtain ⟨k₀, w⟩ := kw
      by_cases h0 : k₀ = k <;> simp [eraseA, lookupA, h0, ih]

theorem lookupA_eraseA_ne {α : Type} (l : List (String × α)) (k k' : String)
    (h : k' ≠ k) : lookupA (eraseA l k) k' = lookupA l k' := by
  have h' : ¬ k = k' := fun hk => h hk.symm
  induction l with
  | nil => simp [eraseA]
  | cons kw rest ih =>
      obtain ⟨k₀, w⟩ := kw
      by_cases h0 : k₀ = k
      · subst h0
        simp [eraseA, lookupA, h', ih]
      · by_cases h1 : k₀ = k' <;> simp [eraseA, lookupA, h0, h1, ih, h, h']

theorem lookupA_filter_none {α : Type} (l : List (String × α)) (p : String × α → Bool)
    (k : String) (h : lookupA l k = none) : lookupA (l.filter p) k = none := by
  induction l with
  | nil => simp [lookupA]
  | cons kw rest ih =>
      obtain ⟨k₀, w⟩ := kw
      by_cases h0 : k₀ = k
      · subst h0; simp [lookupA] at h
      · simp [lookupA, h0] at h
        by_cases hp : p (k₀, w) <;> simp [List.filter, hp, lookupA, h0, ih h]

theorem lookupA_filter_some {α : Type} (l : List (String × α)) (p : String × α → Bool)
    (k : String) (v : α) (h : lookupA l k = some v) (hp : p (k, v) = true) :
    lookupA (l.filter p) k = some v := by
  induction l with
  | nil => simp [lookupA] at h
  | cons kw rest ih =>
      obtain ⟨k₀, w⟩ := kw
      by_cases h0 : k₀ = k
      · subst h0
        simp [lookupA] at h
        subst h
        simp [List.filter, hp, lookupA]
      · simp [lookupA, h0] at h
        by_cases hq : p (k₀, w) <;> simp [List.filter, hq, lookupA, h0, ih h]

theorem lookupA_filter_all_dropped {α : Type} (l : List (String × α))
    (p : String × α → Bool) (k : String)
    (h : ∀ v : α, (k, v) ∈ l → p (k, v) = false) :
    lookupA (l.filter p) k = none := by
  cases hl : lookupA (l.filter p) k with
  | none => rfl
  | some v =>
      have hmem := mem_of_lookupA _ _ _ hl
      rw [List.mem_filter] at hmem
      have := h v hmem.1
      rw [hmem.2] at this
      cases this

/-! ### Master-election invariant -/

/-- Number of instances of a build flagged `is_master`. -/
def masterCount (imap : List (String × Instance)) : Nat :=
  imap.countP (fun kv => kv.2.is_master)

theorem masterCount_insertA_notMaster (imap : List (String × Instance)) (iid : String)
    (inst : Instance) (h : inst.is_master = false) :
    masterCount (insertA imap iid inst) ≤ masterCount imap := by
  induction imap with
  | nil => simp [insertA, masterCount, List.countP_cons, h]
  | cons kw rest ih =>
      obtain ⟨k₀, w⟩ := kw
      simp only [masterCount] at ih ⊢
      by_cases h0 : k₀ = iid
      · simp only [insertA, if_pos h0, List.countP_cons, h]
        cases hw : w.is_master <;> simp [hw]
      · simp only [insertA, if_neg h0, List.countP_cons]
        omega

theorem masterCount_insertA_sameMaster (imap : List (String × Instance)) (iid : String)
    (inst inst' : Instance) (hl : lookupA imap iid = some inst)
    (h : inst'.is_master = inst.is_master) :
    masterCount (insertA imap iid inst') = masterCount imap := by
  induction imap with
  | nil => simp [lookupA] at hl
  | cons kw rest ih =>
      obtain ⟨k₀, w⟩ := kw
      by_cases h0 : k₀ = iid
      · subst h0
        simp [lookupA] at hl
        subst hl
        simp [insertA, masterCount, List.countP_cons, h]
      · simp [lookupA, h0] at hl
        have hr := ih hl
        simp only [masterCount] at hr
        simp [insertA, masterCount, List.countP_cons, h0, hr]

/-- Every build in the registry has at most one instance flagged master. -/
def MasterInv (m : BuildMap) : Prop :=
  ∀ kv ∈ m, masterCount kv.2.instance_map ≤ 1

theorem masterInv_filter (m : BuildMap) (p : String × Build → Bool)
    (h : MasterInv m) : MasterInv (m.filter p) := by
  intro kv hkv
  exact h kv (List.mem_filter.mp hkv).1

theorem masterInv_clear_old_data (now : Int) (m : BuildMap) (h : MasterInv m) :
    MasterInv (clear_old_data now m) :=
  masterInv_filter m _ h

theorem masterInv_register (now : Int) (bid iid : String) (specs : List String)
    (m : BuildMap) (h : MasterInv m) :
    MasterInv (register_instance now bid iid specs m).1 := by
  have h1 : MasterInv (clear_old_data now m) := masterInv_clear_old_data now m h
  unfold register_instance
  intro kv hkv
  rcases mem_insertA _ _ _ _ hkv with heq | hmem
  · subst heq
    cases hb : lookupA (clear_old_data now m) bid with
    | none =>
        simp only [hb]
        cases hmap : (List.nil : List (String × Instance)).isEmpty
        · simp at hmap
        · simp [masterCount, insertA, List.countP_cons]
    | some b =>
        simp only [hb]
        have hcount : masterCount b.instance_map ≤ 1 :=
          h1 (bid, b) (mem_of_lookupA _ _ _ hb)
        cases hmap : b.instance_map with
        | nil => simp [masterCount, insertA, List.countP_cons]
        | cons kw rest =>
            have : masterCount
                (insertA b.instance_map iid
                  { test_list := [], test_status := .Ongoing,
                    is_master := b.instance_map.isEmpty }) ≤ masterCount b.instance_map :=
              masterCount_insertA_notMaster _ _ _ (by simp [hmap])
            simp only [hmap] at *
            omega
  · exact h1 kv hmem

theorem masterInv_next_spec (bid iid : String) (m : BuildMap) (h : MasterInv m) :
    MasterInv (next_spec bid iid m).1 := by
  unfold next_spec
  cases hb : lookupA m bid with
  | none => exact h
  | some b =>
      simp only [hb]
      have hb1 : MasterInv (insertA m bid { b with test_spec_list := b.test_spec_list.tail }) := by
        intro kv hkv
        rcases mem_insertA _ _ _ _ hkv with heq | hmem
        · subst heq
          exact h (bid, b) (mem_of_lookupA _ _ _ hb)
        · exact h kv hmem
      cases hb2 : lookupA (insertA m bid { b with test_spec_list := b.test_spec_list.tail }) bid with
      | none => exact hb1
      | some b2 =>
          simp only [hb2]
          cases hi : lookupA b2.instance_map iid with
          | none => exact hb1
          | some inst =>
              simp only [hi]
              intro kv hkv
              rcases mem_insertA _ _ _ _ hkv with heq | hmem
              · subst heq
                have hcount : masterCount b2.instance_map ≤ 1 :=
                  hb1 (bid, b2) (mem_of_lookupA _ _ _ hb2)
                have := masterCount_insertA_sameMaster b2.instance_map iid inst
                  { inst with test_list := inst.test_list ++ [b.test_spec_list.headD ""] }
                  hi rfl
                simp only [this]
                exact hcount
              · exact hb1 kv hmem

theorem masterInv_test_completed (bid iid : String) (m : BuildMap) (h : MasterInv m) :
    MasterInv (test_completed bid iid m).1 := by
  unfold test_completed
  cases hb : lookupA m bid with
  | none => exact h
  | some b =>
      simp only [hb]
      cases hi : lookupA b.instance_map iid with
      | none => exact h
      | some inst =>
          simp only [hi]
          intro kv hkv
          rcases mem_insertA _ _ _ _ hkv with heq | hmem
          · subst heq
            have hcount : masterCount b.instance_map ≤ 1 :=
              h (bid, b) (mem_of_lookupA _ _ _ hb)
            have := masterCount_insertA_sameMaster b.instance_map iid inst
              { inst with test_status := .Done } hi rfl
            simp only [this]
            exact hcount
          · exact h kv hmem

theorem masterInv_reset (bid : String) (m : BuildMap) (h : MasterInv m) :
    MasterInv (reset_data bid m) := by
  intro kv hkv
  exact h kv (mem_eraseA _ _ _ hkv)

theorem masterInv_applyOp (m : BuildMap) (op : Op) (h : MasterInv m) :
    MasterInv (applyOp m op) := by
  cases op with
  | register now bid iid specs => exact masterInv_register now bid iid specs m h
  | next bid iid => exact masterInv_next_spec bid iid m h
  | completed bid iid => exact masterInv_test_completed bid iid m h
  | reset bid => exact masterInv_reset bid m h

theorem masterInv_runOps (ops : List Op) :
    ∀ m : BuildMap, MasterInv m → MasterInv (runOps m ops) := by
  induction ops with
  | nil => intro m h; exact h
  | cons op rest ih =>
      intro m h
      exact ih (applyOp m op) (masterInv_applyOp m op h)

theorem masterInv_reachable (m : BuildMap) (h : Reachable m) : MasterInv m := by
  obtain ⟨ops, hops⟩ := h
  rw [← hops]
  exact masterInv_runOps ops [] (by intro kv hkv; simp at hkv)

/-! ### Dequeue order -/

/-- When the build and the instance both exist, `next_spec` pops the head of
the queue (with `""` once empty), appends it to the instance's history, and
reports `Done` exactly when the popped string is empty. -/
theorem next_spec_success_eq (bid iid : String) (m : BuildMap) (b : Build) (inst : Instance)
    (hb : lookupA m bid = some b) (hi : lookupA b.instance_map iid = some inst) :
    next_spec bid iid m
      = (insertA (insertA m bid { b with test_spec_list := b.test_spec_list.tail }) bid
           { b with test_spec_list := b.test_spec_list.tail,
                    instance_map := insertA b.instance_map iid
                      { inst with test_list := inst.test_list ++ [b.test_spec_list.headD ""] } },
         .ok (if b.test_spec_list.headD "" = "" then TestStatus.Done else .Ongoing,
              b.test_spec_list.headD "")) := by
  simp only [next_spec, hb, lookupA_insertA_self, hi]

/-- Characterization of a run of successful `next_spec` calls: the responses
are the queue's elements in order, then the `(Done, "")` sentinel repeated. -/
theorem runNextSpecs_eq (bid : String) (iids : List String) :
    ∀ (m : BuildMap) (b : Build),
      lookupA m bid = some b →
      (∀ iid ∈ iids, (lookupA b.instance_map iid).isSome) →
      (runNextSpecs bid m iids).2
        = (b.test_spec_list.take iids.length).map
            (fun t => Except.ok (if t = "" then TestStatus.Done else TestStatus.Ongoing, t))
          ++ List.replicate (iids.length - b.test_spec_list.length)
              (Except.ok (TestStatus.Done, "")) := by
  induction iids with
  | nil =>
      intro m b hb hreg
      simp [runNextSpecs]
  | cons iid rest ih =>
      intro m b hb hreg
      have hiid : (lookupA b.instance_map iid).isSome := hreg iid (by simp)
      obtain ⟨inst, hinst⟩ := Option.isSome_iff_exists.mp hiid
      have hns := next_spec_success_eq bid iid m b inst hb hinst
      simp only [runNextSpecs, hns]
      have hb' : lookupA
          (insertA (insertA m bid { b with test_spec_list := b.test_spec_list.tail }) bid
            { b with test_spec_list := b.test_spec_list.tail,
                     instance_map := insertA b.instance_map iid
                       { inst with test_list := inst.test_list ++ [b.test_spec_list.headD ""] } })
          bid = some { b with
                         test_spec_list := b.test_spec_list.tail,
                         instance_map := insertA b.instance_map iid
                           { inst with
                               test_list := inst.test_list ++ [b.test_spec_list.headD ""] } } :=
        lookupA_insertA_self _ _ _
      have hreg' : ∀ j ∈ rest,
          (lookupA (insertA b.instance_map iid
            { inst with test_list := inst.test_list ++ [b.test_spec_list.headD ""] }) j).isSome := by
        intro j hj
        exact isSome_lookupA_insertA _ _ _ _ (hreg j (List.mem_cons_of_mem _ hj))
      have hrec := ih _ _ hb' hreg'
      simp only [hrec]
      cases hq : b.test_spec_list with
      | nil => simp [List.replicate_succ]
      | cons t ts => simp [Nat.succ_sub_succ]

/-! ### Shared concrete scenario -/

/-- A worker instance as it is first created. -/
def demoInstance : Instance :=
  { test_list := [], test_status := .Ongoing, is_master := true }

/-- A build with two queued specifications and one registered instance. -/
def demoBuild : Build :=
  { instance_map := [("i", demoInstance)], created_on := 0,
    test_spec_list := ["t1", "t2"] }

/-- A registry holding just `demoBuild` under id `"b"`. -/
def demoMap : BuildMap := [("b", demoBuild)]

/-! ### Claims -/

/-- Claim C1: for every build created with a queue of N distinct test
specifications, any sequence of successful NextSpec calls against that build
returns each specification in exactly one response, in original insertion
order, and the (N+1)-th and every subsequent call returns the empty-string
sentinel with status Done.  Formally: the responses of a run of `next_spec`
calls (each naming a registered instance, hence each successful) are exactly
the queue's elements in insertion order followed by `(Done, "")` sentinels;
under distinctness every specification occurs in exactly one response; and
every response from position N on is the sentinel. -/
theorem next_spec_each_once_in_order (bid : String) (iids : List String)
    (m : BuildMap) (b : Build) (hb : lookupA m bid = some b)
    (hreg : ∀ iid ∈ iids, (lookupA b.instance_map iid).isSome)
    (hnd : b.test_spec_list.Nodup) :
    (runNextSpecs bid m iids).2
      = (b.test_spec_list.take iids.length).map
          (fun t => Except.ok (if t = "" then TestStatus.Done else TestStatus.Ongoing, t))
        ++ List.replicate (iids.length - b.test_spec_list.length)
            (Except.ok (TestStatus.Done, "")) ∧
    (∀ s ∈ b.test_spec_list, s ≠ "" →
        List.count (Except.ok (TestStatus.Ongoing, s)) (runNextSpecs bid m iids).2
          = if s ∈ b.test_spec_list.take iids.length then 1 else 0) ∧
    (∀ k, b.test_spec_list.length ≤ k → k < iids.length →
        (runNextSpecs bid m iids).2[k]? = some (Except.ok (TestStatus.Done, ""))) := by
  have heq := runNextSpecs_eq bid iids m b hb hreg
  refine ⟨heq, ?_, ?_⟩
  · intro s hs hne
    rw [heq, List.count_append]
    have hfs : (Except.ok (TestStatus.Ongoing, s) : Except ApiError (TestStatus × String))
        = (fun t => Except.ok (if t = "" then TestStatus.Done else TestStatus.Ongoing, t)) s := by
      simp [hne]
    have hinj : Function.Injective
        (fun t : String =>
          Except.ok (ε := ApiError) (if t = "" then TestStatus.Done else TestStatus.Ongoing, t)) := by
      intro a b hab
      simp at hab
      exact hab.2
    have hz : List.count (Except.ok (TestStatus.Ongoing, s))
        (List.replicate (iids.length - b.test_spec_list.length)
          (Except.ok (ε := ApiError) (TestStatus.Done, ""))) = 0 := by
      rw [List.count_eq_zero]
      intro hmem
      have hdone := List.eq_of_mem_replicate hmem
      simp at hdone
    have hnd' : (b.test_spec_list.take iids.length).Nodup :=
      hnd.sublist (List.take_sublist _ _)
    rw [hz, hfs, List.count_map_of_injective _ _ hinj, List.count_eq_of_nodup hnd',
      Nat.add_zero]
  · intro k hkN hkm
    have hlen : (List.map
        (fun t => Except.ok (ε := ApiError) (if t = "" then TestStatus.Done else TestStatus.Ongoing, t))
        (b.test_spec_list.take iids.length)).length = b.test_spec_list.length := by
      simp [List.length_take]
      omega
    rw [heq, List.getElem?_append_right (by omega), hlen]
    rw [List.getElem?_replicate]
    simp only [if_pos (by omega : k - b.test_spec_list.length
      < iids.length - b.test_spec_list.length)]

/-- Witness for C1 at a concrete input: build `"b"` with queue
`["t1", "t2"]`, three calls from registered instance `"i"`. -/
theorem next_spec_each_once_in_order_witness :
    lookupA demoMap "b" = some demoBuild ∧
    (∀ iid ∈ (["i", "i", "i"] : List String), (lookupA demoBuild.instance_map iid).isSome) ∧
    (["t1", "t2"] : List String).Nodup ∧
    ((runNextSpecs "b" demoMap ["i", "i", "i"]).2
      = (demoBuild.test_spec_list.take 3).map
          (fun t => Except.ok (if t = "" then TestStatus.Done else TestStatus.Ongoing, t))
        ++ List.replicate (3 - demoBuild.test_spec_list.length)
            (Except.ok (TestStatus.Done, "")) ∧
    (∀ s ∈ demoBuild.test_spec_list, s ≠ "" →
        List.count (Except.ok (TestStatus.Ongoing, s)) (runNextSpecs "b" demoMap ["i", "i", "i"]).2
          = if s ∈ demoBuild.test_spec_list.take 3 then 1 else 0) ∧
    (∀ k, demoBuild.test_spec_list.length ≤ k → k < 3 →
        (runNextSpecs "b" demoMap ["i", "i", "i"]).2[k]?
          = some (Except.ok (TestStatus.Done, "")))) :=
  ⟨rfl, by decide, by decide,
   next_spec_each_once_in_order "b" ["i", "i", "i"] demoMap demoBuild rfl
     (by decide) (by decide)⟩

/-- Claim C2 (code bug): the claim says a NextSpec call on an existing build
with an unregistered instance fails with InstanceNotFound and leaves
`test_spec_list` unchanged.  The code pops the queue before the instance
lookup, so the dequeued specification is lost: here the build `"b"` is
created with queue `["t1"]` and registered instance `"i1"`; `next_spec` for
unregistered `"i2"` returns InstanceNotFound, yet the queue has become `[]`
and `"t1"` was appended to no instance's history. -/
theorem next_spec_unknown_instance_loses_spec :
    (next_spec "b" "i2" ((register_instance 0 "b" "i1" ["t1"] []).1)).2
      = Except.error ApiError.InstanceNotFound ∧
    (lookupA ((register_instance 0 "b" "i1" ["t1"] []).1) "b").map Build.test_spec_list
      = some ["t1"] ∧
    (lookupA (next_spec "b" "i2" ((register_instance 0 "b" "i1" ["t1"] []).1)).1 "b").map
        Build.test_spec_list = some [] ∧
    (lookupA (next_spec "b" "i2" ((register_instance 0 "b" "i1" ["t1"] []).1)).1 "b").map
        (fun b => (lookupA b.instance_map "i1").map Instance.test_list)
      = some (some []) := by
  refine ⟨rfl, rfl, rfl, rfl⟩

/-- The registry after registering build `"b"`/instance `"i"` with queue
`["t1", "t2"]` and one successful NextSpec call: the stored instance is
`⟨["t1"], Ongoing, true⟩`. -/
def preRereg : BuildMap :=
  (next_spec "b" "i" ((register_instance 0 "b" "i" ["t1", "t2"] []).1)).1

/-- Claim C3 counterexample: registering the same (build, instance) pair a
second time is not a no-op returning the existing Instance unchanged.  In
`preRereg` the stored instance is `⟨["t1"], Ongoing, true⟩`; the repeated
RegisterInstance call returns and stores `⟨[], Ongoing, false⟩`: `test_list`
is reset and `is_master` flips from true to false. -/
theorem register_instance_second_call_resets :
    (lookupA preRereg "b").map (fun b => lookupA b.instance_map "i")
      = some (some { test_list := ["t1"], test_status := .Ongoing, is_master := true }) ∧
    (register_instance 0 "b" "i" ["t1", "t2"] preRereg).2
      = { test_list := [], test_status := .Ongoing, is_master := false } ∧
    (lookupA (register_instance 0 "b" "i" ["t1", "t2"] preRereg).1 "b").map
        (fun b => lookupA b.instance_map "i")
      = some (some { test_list := [], test_status := .Ongoing, is_master := false }) :=
  ⟨rfl, rfl, rfl⟩

/-- Claim C3 amended: a RegisterInstance call for a (build, instance) pair
whose instance already exists (in the post-sweep view) overwrites the
instance with a fresh one — `test_list` reset to `[]`, `test_status` reset to
Ongoing, and `is_master` recomputed as false since the instance map is
non-empty — while the build's queue and `created_on` are preserved and the
request's spec list is still ignored (no re-queueing). -/
theorem register_instance_reregister_overwrites (now : Int) (bid iid : String)
    (specs : List String) (m : BuildMap) (b : Build) (inst : Instance)
    (hb : lookupA (clear_old_data now m) bid = some b)
    (hi : lookupA b.instance_map iid = some inst) :
    (register_instance now bid iid specs m).2
      = { test_list := [], test_status := .Ongoing, is_master := false } ∧
    lookupA (register_instance now bid iid specs m).1 bid
      = some { b with instance_map :=
                 insertA b.instance_map iid ⟨[], .Ongoing, false⟩ } := by
  have hne : b.instance_map.isEmpty = false := by
    cases hmap : b.instance_map with
    | nil => rw [hmap] at hi; simp [lookupA] at hi
    | cons kw rest => simp
  constructor
  · simp only [register_instance, hb, hne]
  · simp only [register_instance, hb, hne, lookupA_insertA_self]

/-- Witness for the amended C3 theorem on the shared scenario. -/
theorem register_instance_reregister_overwrites_witness :
    lookupA (clear_old_data 0 demoMap) "b" = some demoBuild ∧
    lookupA demoBuild.instance_map "i" = some demoInstance ∧
    ((register_instance 0 "b" "i" ["x"] demoMap).2
      = { test_list := [], test_status := .Ongoing, is_master := false } ∧
    lookupA (register_instance 0 "b" "i" ["x"] demoMap).1 "b"
      = some { demoBuild with instance_map := insertA demoBuild.instance_map "i" ⟨[], .Ongoing, false⟩ }) :=
  ⟨rfl, rfl,
   register_instance_reregister_overwrites 0 "b" "i" ["x"] demoMap demoBuild demoInstance
     rfl rfl⟩

/-- Claim C4 counterexample: the reachable state obtained by registering the
same (build, instance) pair twice has a non-empty `instance_map` and zero
instances flagged master — the claimed "exactly one master" invariant fails
on the code. -/
theorem register_twice_leaves_no_master :
    Reachable (runOps [] [Op.register 0 "b" "i" ["t"], Op.register 0 "b" "i" ["t"]]) ∧
    (lookupA (runOps [] [Op.register 0 "b" "i" ["t"], Op.register 0 "b" "i" ["t"]]) "b").map
        (fun b => (b.instance_map.isEmpty, masterCount b.instance_map))
      = some (false, 0) :=
  ⟨⟨[Op.register 0 "b" "i" ["t"], Op.register 0 "b" "i" ["t"]], rfl⟩, by decide⟩

/-- Claim C4 amended: in every reachable state, every build has at most one
instance with `is_master = true` (re-registering an instance recomputes its
`is_master` as "instance map was empty", so a build with instances can be
left with zero masters, but never gains a second one). -/
theorem reachable_master_at_most_one (m : BuildMap) (hm : Reachable m)
    (bid : String) (b : Build) (hb : lookupA m bid = some b) :
    masterCount b.instance_map ≤ 1 :=
  masterInv_reachable m hm (bid, b) (mem_of_lookupA _ _ _ hb)

/-- Witness for the amended C4 theorem: the shared one-instance registry is
reachable and its build has exactly one master flag. -/
theorem reachable_master_at_most_one_witness :
    Reachable demoMap ∧ lookupA demoMap "b" = some demoBuild ∧
    masterCount demoBuild.instance_map ≤ 1 :=
  ⟨⟨[Op.register 0 "b" "i" ["t1", "t2"]], by decide⟩, rfl,
   reachable_master_at_most_one demoMap
     ⟨[Op.register 0 "b" "i" ["t1", "t2"]], by decide⟩ "b" demoBuild rfl⟩

/-- A registry whose only build is far older than the retention window. -/
def expiredMap : BuildMap :=
  [("b", { instance_map := [("i", demoInstance)], created_on := 0,
           test_spec_list := ["old"] })]

/-- Claim C5 counterexample: a build created at time 0 is more than 2 hours
old at time 10000, yet NextSpec — which never runs the expiry sweep — still
observes it and dequeues from it, instead of the build being absent from the
operation's view as the claim states.  (`next_spec`, `test_completed` and
`reset_data` take no clock at all: only `register_instance` calls
`clear_old_data`.) -/
theorem next_spec_sees_expired_build :
    ((0 : Int) < 10000 - 7200) ∧
    (lookupA expiredMap "b").map Build.created_on = some 0 ∧
    (next_spec "b" "i" expiredMap).2 = Except.ok (TestStatus.Ongoing, "old") :=
  ⟨by decide, rfl, rfl⟩

/-- Claim C5 amended: only RegisterInstance runs the expiry sweep.  After a
RegisterInstance call at time `now`, every build in the registry has
`created_on` within the 2-hour window (expired builds were removed before the
operation observed the map), and a target build whose entries were all
expired is recreated from scratch as if it never existed. -/
theorem register_instance_sweeps_expired (now : Int) (bid iid : String)
    (specs : List String) (m : BuildMap) :
    (∀ bid' b', lookupA (register_instance now bid iid specs m).1 bid' = some b' →
        now - 7200 ≤ b'.created_on) ∧
    (∀ b, lookupA m bid = some b →
        (∀ kv ∈ m, kv.1 = bid → kv.2.created_on < now - 7200) →
        lookupA (register_instance now bid iid specs m).1 bid
          = some { instance_map := [(iid, ⟨[], .Ongoing, true⟩)],
                   created_on := now, test_spec_list := specs }) := by
  have hkeep : ∀ b' : Build, ∀ bid' : String,
      lookupA (clear_old_data now m) bid' = some b' → now - 7200 ≤ b'.created_on := by
    intro b' bid' hl
    have hmem := mem_of_lookupA _ _ _ hl
    rw [clear_old_data, List.mem_filter] at hmem
    have := hmem.2
    simp only [Bool.not_eq_true', decide_eq_false_iff_not, not_lt] at this
    exact this
  constructor
  · intro bid' b' hl
    by_cases hcase : bid' = bid
    · subst hcase
      cases hb : lookupA (clear_old_data now m) bid' with
      | none =>
          simp only [register_instance, hb, lookupA_insertA_self] at hl
          cases hl
          simp
      | some b0 =>
          simp only [register_instance, hb, lookupA_insertA_self] at hl
          cases hl
          exact hkeep b0 bid' hb
    · simp only [register_instance] at hl
      rw [lookupA_insertA_ne _ _ _ _ hcase] at hl
      exact hkeep b' bid' hl
  · intro b hb hexp
    have hnone : lookupA (clear_old_data now m) bid = none := by
      apply lookupA_filter_all_dropped
      intro v hv
      simp only [Bool.not_eq_false', decide_eq_true_eq]
      exact hexp (bid, v) hv rfl
    simp only [register_instance, hnone, lookupA_insertA_self]
    rfl

/-- Witness for the amended C5 theorem: at time 10000 the sweep drops the
build created at time 0 and RegisterInstance recreates it fresh. -/
theorem register_instance_sweeps_expired_witness :
    lookupA expiredMap "b"
      = some { instance_map := [("i", demoInstance)], created_on := 0,
               test_spec_list := ["old"] } ∧
    (∀ kv ∈ expiredMap, kv.1 = "b" → kv.2.created_on < 10000 - 7200) ∧
    lookupA (register_instance 10000 "b" "i2" ["x"] expiredMap).1 "b"
      = some { instance_map := [("i2", ⟨[], .Ongoing, true⟩)],
               created_on := 10000, test_spec_list := ["x"] } ∧
    ((10000 : Int) - 7200 ≤ 10000) :=
  ⟨rfl, by decide,
   (register_instance_sweeps_expired 10000 "b" "i2" ["x"] expiredMap).2
     ⟨[("i", demoInstance)], 0, ["old"]⟩ rfl (by decide),
   (register_instance_sweeps_expired 10000 "b" "i2" ["x"] expiredMap).1 "b"
     ⟨[("i2", ⟨[], .Ongoing, true⟩)], 10000, ["x"]⟩
     ((register_instance_sweeps_expired 10000 "b" "i2" ["x"] expiredMap).2
       ⟨[("i", demoInstance)], 0, ["old"]⟩ rfl (by decide))⟩

/-- Claim C6 counterexample: identity resolution succeeds with empty build
id and instance id values, as long as the three headers are present and the
credential matches — the "non-empty" condition in the claim is not checked by
the code. -/
theorem from_request_accepts_empty_ids :
    from_request (Headers.mk (some "") (some "") (some "s")) "s"
      = Except.ok (RequestMeta.mk "" "" "s") := rfl

/-- Claim C6 amended: identity resolution succeeds exactly when the build id,
instance id and credential headers are all present (and parsable) and the
credential exactly equals the configured shared secret; present-but-empty
values are accepted.  On any failure it yields `InvalidRequest`, and the
resolver is a pure function of the headers and the secret, so it has no side
effects and touches no registry state. -/
theorem from_request_ok_characterization (h : Headers) (tok : String) :
    ((∃ meta, from_request h tok = Except.ok meta) ↔
      (h.ci_build_id.isSome ∧ h.ci_instance_id.isSome ∧ h.repo_token = some tok)) ∧
    (∀ meta, from_request h tok = Except.ok meta →
      h.ci_build_id = some meta.build_id ∧ h.ci_instance_id = some meta.instance_id ∧
      meta.token = tok) ∧
    (¬(h.ci_build_id.isSome ∧ h.ci_instance_id.isSome ∧ h.repo_token = some tok) →
      from_request h tok = Except.error ApiError.InvalidRequest) := by
  obtain ⟨ob, oi, ot⟩ := h
  cases ob <;> cases oi <;> cases ot <;> simp [from_request, get_meta]
  rename_i t
  by_cases htok : t = tok <;> simp [htok]

/-- Witness for the amended C6 theorem at concrete headers. -/
theorem from_request_ok_characterization_witness :
    ((Headers.mk (some "bid1") (some "inst1") (some "sec")).ci_build_id
        = some (RequestMeta.mk "bid1" "inst1" "sec").build_id ∧
      (Headers.mk (some "bid1") (some "inst1") (some "sec")).ci_instance_id
        = some (RequestMeta.mk "bid1" "inst1" "sec").instance_id ∧
      (RequestMeta.mk "bid1" "inst1" "sec").token = "sec") ∧
    from_request (Headers.mk (some "bid1") (some "inst1") none) "sec"
      = Except.error ApiError.InvalidRequest :=
  ⟨(from_request_ok_characterization
      (Headers.mk (some "bid1") (some "inst1") (some "sec")) "sec").2.1
      (RequestMeta.mk "bid1" "inst1" "sec") rfl,
   (from_request_ok_characterization
      (Headers.mk (some "bid1") (some "inst1") none) "sec").2.2 (by simp)⟩

/-- Claim C7: a TestCompleted call naming an absent build fails with
BuildNotFound; naming an existing build but an absent instance fails with
InstanceNotFound; in both cases the returned registry state is exactly the
input state — nothing is mutated. -/
theorem test_completed_not_found_no_mutation (bid iid : String) (m : BuildMap) :
    (lookupA m bid = none →
      test_completed bid iid m = (m, Except.error ApiError.BuildNotFound)) ∧
    (∀ b, lookupA m bid = some b → lookupA b.instance_map iid = none →
      test_completed bid iid m = (m, Except.error ApiError.InstanceNotFound)) := by
  constructor
  · intro h
    simp [test_completed, h]
  · intro b hb hi
    simp [test_completed, hb, hi]

/-- Witness for C7: unknown build on the empty registry, then unknown
instance `"j"` on the shared one-instance registry. -/
theorem test_completed_not_found_no_mutation_witness :
    (lookupA ([] : BuildMap) "b" = none ∧
      test_completed "b" "i" [] = ([], Except.error ApiError.BuildNotFound)) ∧
    (lookupA demoMap "b" = some demoBuild ∧
      lookupA demoBuild.instance_map "j" = none ∧
      test_completed "b" "j" demoMap = (demoMap, Except.error ApiError.InstanceNotFound)) :=
  ⟨⟨rfl, (test_completed_not_found_no_mutation "b" "i" []).1 rfl⟩,
   ⟨rfl, rfl, (test_completed_not_found_no_mutation "b" "j" demoMap).2 demoBuild rfl rfl⟩⟩

/-- Claim C8: a RegisterInstance call naming a build already present (in the
operation's post-sweep view of the registry) keeps that build's
`test_spec_list` and `created_on` and ignores the request's initial spec
list: the stored build changes only in its `instance_map`. -/
theorem register_instance_preserves_existing_build (now : Int) (bid iid : String)
    (specs : List String) (m : BuildMap) (b : Build)
    (hb : lookupA (clear_old_data now m) bid = some b) :
    lookupA (register_instance now bid iid specs m).1 bid
      = some { b with instance_map := insertA b.instance_map iid ⟨[], .Ongoing, b.instance_map.isEmpty⟩ } ∧
    (lookupA (register_instance now bid iid specs m).1 bid).map Build.test_spec_list
      = some b.test_spec_list ∧
    (lookupA (register_instance now bid iid specs m).1 bid).map Build.created_on
      = some b.created_on := by
  have h1 : lookupA (register_instance now bid iid specs m).1 bid
      = some { b with instance_map := insertA b.instance_map iid ⟨[], .Ongoing, b.instance_map.isEmpty⟩ } := by
    simp only [register_instance, hb, lookupA_insertA_self]
  exact ⟨h1, by rw [h1]; rfl, by rw [h1]; rfl⟩

/-- Witness for C8: re-registering on the shared scenario with a different
spec list `["x"]` leaves the queue `["t1", "t2"]` and `created_on` as they
were. -/
theorem register_instance_preserves_existing_build_witness :
    lookupA (clear_old_data 0 demoMap) "b" = some demoBuild ∧
    ((lookupA (register_instance 0 "b" "i2" ["x"] demoMap).1 "b").map Build.test_spec_list
        = some demoBuild.test_spec_list ∧
      (lookupA (register_instance 0 "b" "i2" ["x"] demoMap).1 "b").map Build.created_on
        = some demoBuild.created_on) :=
  ⟨rfl,
   (register_instance_preserves_existing_build 0 "b" "i2" ["x"] demoMap demoBuild rfl).2⟩

/-- Claim C9: ResetBuild always succeeds (also on a never-registered id),
removes the build with all its instances and touches no other build, and a
subsequent RegisterInstance for the same id behaves as first-time creation:
the queue is taken from the new request body, the instance map holds exactly
the registering instance, and that instance is elected master. -/
theorem reset_then_register_fresh (m : BuildMap) (now : Int) (bid iid : String)
    (specs : List String) :
    lookupA (reset_data bid m) bid = none ∧
    (∀ bid', bid' ≠ bid → lookupA (reset_data bid m) bid' = lookupA m bid') ∧
    (register_instance now bid iid specs (reset_data bid m)).2
      = { test_list := [], test_status := .Ongoing, is_master := true } ∧
    lookupA (register_instance now bid iid specs (reset_data bid m)).1 bid
      = some { instance_map := [(iid, ⟨[], .Ongoing, true⟩)], created_on := now,
               test_spec_list := specs } := by
  have h0 : lookupA (reset_data bid m) bid = none := lookupA_eraseA_self m bid
  have h1 : lookupA (clear_old_data now (reset_data bid m)) bid = none :=
    lookupA_filter_none _ _ _ h0
  refine ⟨h0, fun bid' hne => lookupA_eraseA_ne m bid bid' hne, ?_, ?_⟩
  · simp only [register_instance, h1]
    rfl
  · simp only [register_instance, h1, lookupA_insertA_self]
    rfl

/-- Witness for C9: resetting the shared registry and re-registering under a
new instance id and spec list. -/
theorem reset_then_register_fresh_witness :
    lookupA (reset_data "b" demoMap) "b" = none ∧
    (("c" : String) ≠ "b" ∧ lookupA (reset_data "b" demoMap) "c" = lookupA demoMap "c") ∧
    (register_instance 7 "b" "i9" ["n1"] (reset_data "b" demoMap)).2
      = { test_list := [], test_status := .Ongoing, is_master := true } ∧
    lookupA (register_instance 7 "b" "i9" ["n1"] (reset_data "b" demoMap)).1 "b"
      = some { instance_map := [("i9", ⟨[], .Ongoing, true⟩)], created_on := 7,
               test_spec_list := ["n1"] } :=
  ⟨(reset_then_register_fresh demoMap 7 "b" "i9" ["n1"]).1,
   ⟨by decide, (reset_then_register_fresh demoMap 7 "b" "i9" ["n1"]).2.1 "c" (by decide)⟩,
   (reset_then_register_fresh demoMap 7 "b" "i9" ["n1"]).2.2.1,
   (reset_then_register_fresh demoMap 7 "b" "i9" ["n1"]).2.2.2⟩

/-- A build whose queue starts with a genuine empty-string specification,
with a further specification behind it. -/
def emptyFrontBuild : Build :=
  { instance_map := [("i", demoInstance)], created_on := 0,
    test_spec_list := ["", "t2"] }

/-- A registry holding just `emptyFrontBuild` under id `"b"`. -/
def emptyFrontMap : BuildMap := [("b", emptyFrontBuild)]

/-- Claim C10: when the queue's front element is the empty string, the
NextSpec call that dequeues it responds `Done` with `next_test = ""` even
though specifications remain queued; in general the status of a successful
NextSpec response is `Done` exactly when the returned string is empty, so it
does not signal queue exhaustion. -/
theorem next_spec_done_from_empty_string (bid iid : String) (m : BuildMap)
    (b : Build) (inst : Instance) (rest : List String)
    (hb : lookupA m bid = some b) (hq : b.test_spec_list = "" :: rest)
    (hi : lookupA b.instance_map iid = some inst) :
    (next_spec bid iid m).2 = Except.ok (TestStatus.Done, "") ∧
    (lookupA (next_spec bid iid m).1 bid).map Build.test_spec_list = some rest ∧
    (∀ (m0 : BuildMap) (st : TestStatus) (v : String),
        (next_spec bid iid m0).2 = Except.ok (st, v) → (st = TestStatus.Done ↔ v = "")) := by
  have hns := next_spec_success_eq bid iid m b inst hb hi
  refine ⟨?_, ?_, ?_⟩
  · rw [hns]
    simp [hq]
  · rw [hns]
    simp [lookupA_insertA_self, hq]
  · intro m0 st v hok
    cases h0 : lookupA m0 bid with
    | none =>
        simp [next_spec, h0] at hok
    | some b0 =>
        simp only [next_spec, h0, lookupA_insertA_self] at hok
        cases h1 : lookupA b0.instance_map iid with
        | none => rw [h1] at hok; simp at hok
        | some inst0 =>
            rw [h1] at hok
            simp only [Except.ok.injEq, Prod.mk.injEq] at hok
            obtain ⟨hst, hv⟩ := hok
            subst hv
            by_cases hvv : b0.test_spec_list.headD "" = "" <;>
              simp [hvv] at hst <;> simp [← hst, hvv]

/-- Witness for C10: dequeuing the front `""` of queue `["", "t2"]` responds
`(Done, "")` while `["t2"]` is still queued. -/
theorem next_spec_done_from_empty_string_witness :
    lookupA emptyFrontMap "b" = some emptyFrontBuild ∧
    emptyFrontBuild.test_spec_list = "" :: ["t2"] ∧
    lookupA emptyFrontBuild.instance_map "i" = some demoInstance ∧
    (next_spec "b" "i" emptyFrontMap).2 = Except.ok (TestStatus.Done, "") ∧
    (lookupA (next_spec "b" "i" emptyFrontMap).1 "b").map Build.test_spec_list = some ["t2"] :=
  ⟨rfl, rfl, rfl,
   (next_spec_done_from_empty_string "b" "i" emptyFrontMap emptyFrontBuild demoInstance
      ["t2"] rfl rfl rfl).1,
   (next_spec_done_from_empty_string "b" "i" emptyFrontMap emptyFrontBuild demoInstance
      ["t2"] rfl rfl rfl).2.1⟩

end TestOrch
